import Mathlib

/-!
Verification development for a React autocomplete component (a text input
paired with a filtered, keyboard-navigable suggestion dropdown).

The definitions below are a shallow embedding of the component source:
pure computations become Lean functions, the mutable interaction state
becomes an explicit `State` record threaded through handler functions,
and side effects (callback invocations, DOM focus calls) become an
explicit list of `Effect` values returned by each handler.
-/

namespace Autocomplete

/-- Mirror of the component props that the interaction logic reads.
Function-valued props (`shouldItemRender`, `isItemSelectable`, `sortItems`,
`getItemValue`) are carried as Lean functions; props that the component
defaults (`isItemSelectable`, `autoHighlight`, `selectOnBlur`) are total
because `defaultProps` always fills them in.  The field `openProp` embeds
the prop named `open` in the source (`open` is a Lean keyword); `none`
means the caller did not supply it.  `inputPropsOnBlur` and
`inputPropsOnFocus` record whether `inputProps.onBlur` / `inputProps.onFocus`
handlers were supplied. -/
structure Props (α : Type) where
  items : List α
  value : String
  shouldItemRender : Option (α → String → Bool)
  isItemSelectable : α → Bool
  sortItems : Option (α → α → String → Int)
  getItemValue : α → String
  autoHighlight : Bool
  selectOnBlur : Bool
  openProp : Option Bool
  inputPropsOnBlur : Bool
  inputPropsOnFocus : Bool

/-- Mirror of the component state fields the claims are about
(`menuTop` / `menuLeft` / `menuWidth` geometry is not modelled). -/
structure State where
  isOpen : Bool
  highlightedIndex : Option Nat
deriving DecidableEq, Repr

/-- Insert `x` into `l`, placing it before the first element `y` with
`le x y`.  Helper for `stableSort`. -/
def sortInsert (le : α → α → Bool) (x : α) : List α → List α
  | [] => [x]
  | y :: ys => if le x y then x :: y :: ys else y :: sortInsert le x ys

/-- Stable comparison sort.  Models `Array.prototype.sort` with a
caller comparator: ECMAScript requires the sort to be stable, and the
source comparator `cmp` induces the ordering `le a b := cmp a b ≤ 0`. -/
def stableSort (le : α → α → Bool) : List α → List α
  | [] => []
  | x :: xs => sortInsert le x (stableSort le xs)

/-- Embedding of `getFilteredItems`: optionally filter by
`shouldItemRender item value`, then, when a `sortItems` comparator is
supplied, sort the result with it (the comparator also receives the
current value). -/
def getFilteredItems (props : Props α) : List α :=
  let items :=
    match props.shouldItemRender with
    | some shouldRender => props.items.filter fun item => shouldRender item props.value
    | none => props.items
  match props.sortItems with
  | some cmp => stableSort (fun a b => decide (cmp a b props.value ≤ 0)) items
  | none => items

/-- The contents of the caller-supplied `props.items` array after
`getFilteredItems` returns.  In the source, `Array.prototype.filter`
allocates a fresh array but `Array.prototype.sort` sorts in place; when
`shouldItemRender` is absent the local variable `items` still aliases
`props.items`, so the in-place sort mutates the caller array.  In every
other configuration the caller array is untouched. -/
def itemsAfterGetFilteredItems (props : Props α) : List α :=
  match props.shouldItemRender, props.sortItems with
  | none, some cmp => stableSort (fun a b => decide (cmp a b props.value ≤ 0)) props.items
  | _, _ => props.items

/-- Concrete props exhibiting the in-place sort aliasing: two items out
of order, a comparator, no filter predicate. -/
def mutProps : Props Nat where
  items := [2, 1]
  value := ""
  shouldItemRender := none
  isItemSelectable := fun _ => true
  sortItems := some fun a b _ => (a : Int) - (b : Int)
  getItemValue := fun _ => ""
  autoHighlight := true
  selectOnBlur := false
  openProp := none
  inputPropsOnBlur := false
  inputPropsOnFocus := false

/-- Claim C3: computing the filtered/sorted view never mutates the
caller-supplied `props.items`.  The code violates this in exactly one
configuration: `sortItems` supplied while `shouldItemRender` is absent,
where the in-place sort runs directly on the aliased caller array.  This
theorem evaluates the embedding at that failing input: the caller array
`[2, 1]` ends up reordered to `[1, 2]`. -/
theorem C3_sort_mutates_props_items :
    itemsAfterGetFilteredItems mutProps = [1, 2] ∧
    mutProps.items = [2, 1] ∧
    itemsAfterGetFilteredItems mutProps ≠ mutProps.items := by
  refine ⟨by decide, rfl, by decide⟩

/-- Concrete props for the C2 witness: odd items kept, no sort. -/
def c2Props : Props Nat where
  items := [1, 2, 3]
  value := ""
  shouldItemRender := some fun item _ => decide (item % 2 = 1)
  isItemSelectable := fun _ => true
  sortItems := none
  getItemValue := fun _ => ""
  autoHighlight := true
  selectOnBlur := false
  openProp := none
  inputPropsOnBlur := false
  inputPropsOnFocus := false

/-- With no comparator and a filter predicate, `getFilteredItems` is
exactly `List.filter`. -/
theorem getFilteredItems_eq_filter (props : Props α) (shouldRender : α → String → Bool)
    (hsort : props.sortItems = none)
    (hq : props.shouldItemRender = some shouldRender) :
    getFilteredItems props = props.items.filter fun item => shouldRender item props.value := by
  unfold getFilteredItems
  rw [hsort, hq]

/-- With no comparator and no filter predicate, `getFilteredItems` is
the identity on the item collection. -/
theorem getFilteredItems_eq_items (props : Props α)
    (hsort : props.sortItems = none)
    (hq : props.shouldItemRender = none) :
    getFilteredItems props = props.items := by
  unfold getFilteredItems
  rw [hsort, hq]

/-- Claim C2: absent a `sortItems` comparator, the filtered view is a
sublist of the input (same relative order) that keeps exactly the items
passing the `shouldItemRender` predicate (all items when the predicate
is absent): membership implies the predicate holds, and occurrence
counts are preserved for passing items and zero for failing ones. -/
theorem C2_filter_keeps_exactly_matching (α : Type) [DecidableEq α]
    (props : Props α) (hsort : props.sortItems = none) :
    (getFilteredItems props).Sublist props.items ∧
    (∀ shouldRender, props.shouldItemRender = some shouldRender →
      ∀ a ∈ getFilteredItems props, shouldRender a props.value = true) ∧
    (∀ shouldRender a, props.shouldItemRender = some shouldRender →
      (getFilteredItems props).count a =
        if shouldRender a props.value then props.items.count a else 0) ∧
    (props.shouldItemRender = none → getFilteredItems props = props.items) := by
  refine ⟨?_, ?_, ?_, fun hq => getFilteredItems_eq_items props hsort hq⟩
  · cases hq : props.shouldItemRender with
    | none =>
      rw [getFilteredItems_eq_items props hsort hq]
    | some shouldRender =>
      rw [getFilteredItems_eq_filter props shouldRender hsort hq]
      exact List.filter_sublist _
  · intro shouldRender hq a ha
    rw [getFilteredItems_eq_filter props shouldRender hsort hq] at ha
    exact (List.mem_filter.mp ha).2
  · intro shouldRender a hq
    rw [getFilteredItems_eq_filter props shouldRender hsort hq]
    by_cases hpa : shouldRender a props.value = true
    · rw [if_pos hpa]
      exact List.count_filter hpa
    · rw [if_neg hpa]
      rw [List.count_eq_zero]
      intro hmem
      exact hpa (List.mem_filter.mp hmem).2

/-- Witness for C2 at concrete input: items `[1, 2, 3]` with the
odd-keeping predicate give a sublist with one occurrence of `1` and no
occurrence of `2`. -/
theorem C2_filter_keeps_exactly_matching_witness :
    (getFilteredItems c2Props).Sublist [1, 2, 3] ∧
    (getFilteredItems c2Props).count 1 = 1 ∧
    (getFilteredItems c2Props).count 2 = 0 := by
  have h := C2_filter_keeps_exactly_matching Nat c2Props rfl
  refine ⟨h.1, ?_, ?_⟩
  · have h1 := h.2.2.1 (fun item _ => decide (item % 2 = 1)) 1 rfl
    simpa using h1
  · have h2 := h.2.2.1 (fun item _ => decide (item % 2 = 1)) 2 rfl
    simpa using h2

/-- Whether the item at position `p` of `items` exists and satisfies the
selectability predicate.  In the source the handlers test
`this.props.isItemSelectable(items[p])`; every position they probe is in
range, so the out-of-range branch is never taken there. -/
def selAt (sel : α → Bool) (items : List α) (p : Nat) : Bool :=
  match items.get? p with
  | some item => sel item
  | none => false

/-- Embedding of the `for` loops in the `ArrowDown` / `ArrowUp` handlers:
probe positions `pos 0, pos 1, ...` in order and return the first probed
position holding a selectable item.  `remaining` counts the iterations
left (the loops run `items.length` times), so the recursion is
structural. -/
def scanLoop (sel : α → Bool) (items : List α) (pos : Nat → Nat) :
    Nat → Nat → Option Nat
  | _, 0 => none
  | i, remaining + 1 =>
    if selAt sel items (pos i) then some (pos i)
    else scanLoop sel items pos (i + 1) remaining

/-- Start of the `ArrowDown` probe sequence: the JS handler uses the
sentinel `index = -1` when no highlight exists and probes
`(index + i + 1) % length`; since `-1 + i + 1 = i` and
`h + i + 1 = (h + 1) + i`, the probe sequence is `(base + i) % length`
with this base. -/
@[simp] def arrowDownBase : Option Nat → Nat
  | none => 0
  | some h => h + 1

/-- Start of the `ArrowUp` probe sequence: the JS handler uses the
sentinel `index = length` when no highlight exists and probes
`(index - (1 + i) + length) % length`, which in `Nat` arithmetic is
`(base + length - (1 + i)) % length` with this base. -/
@[simp] def arrowUpBase (len : Nat) : Option Nat → Nat
  | none => len
  | some h => h

/-- Embedding of the `ArrowDown` key handler.  A new state is set only
when a selectable position was found (`index > -1`) and it differs from
the current highlight (`index !== highlightedIndex`). -/
def handleArrowDown (props : Props α) (state : State) : State :=
  if (getFilteredItems props).length = 0 then state
  else
    match scanLoop props.isItemSelectable (getFilteredItems props)
        (fun i => (arrowDownBase state.highlightedIndex + i) % (getFilteredItems props).length)
        0 (getFilteredItems props).length with
    | some p =>
        if state.highlightedIndex = some p then state
        else { highlightedIndex := some p, isOpen := true }
    | none => state

/-- Embedding of the `ArrowUp` key handler.  The JS guard
`index !== items.length` fires whenever a selectable position was found,
and also when no position was found but a highlight (different from
`length`) already existed, in which case the state is re-set to the same
highlight with the menu opened. -/
def handleArrowUp (props : Props α) (state : State) : State :=
  if (getFilteredItems props).length = 0 then state
  else
    match scanLoop props.isItemSelectable (getFilteredItems props)
        (fun i =>
          (arrowUpBase (getFilteredItems props).length state.highlightedIndex +
            (getFilteredItems props).length - (1 + i)) % (getFilteredItems props).length)
        0 (getFilteredItems props).length with
    | some p => { highlightedIndex := some p, isOpen := true }
    | none =>
        match state.highlightedIndex with
        | none => state
        | some h =>
            if h = (getFilteredItems props).length then state
            else { highlightedIndex := some h, isOpen := true }

/-- A selectable position is inside the list. -/
theorem selAt_lt_length {sel : α → Bool} {items : List α} {p : Nat}
    (h : selAt sel items p = true) : p < items.length := by
  unfold selAt at h
  cases hg : items.get? p with
  | none =>
    rw [hg] at h
    exact absurd h (by simp)
  | some item =>
    exact (List.get?_eq_some.mp hg).1

/-- Characterization of `selAt` via `get?`. -/
theorem selAt_eq_true_iff {sel : α → Bool} {items : List α} {p : Nat} :
    selAt sel items p = true ↔ ∃ item, items.get? p = some item ∧ sel item = true := by
  unfold selAt
  cases hg : items.get? p <;> simp

/-- If every probed position in the window fails, the scan returns
`none`. -/
theorem scanLoop_eq_none {sel : α → Bool} {items : List α} {pos : Nat → Nat} :
    ∀ remaining i,
      (∀ k, i ≤ k → k < i + remaining → selAt sel items (pos k) = false) →
      scanLoop sel items pos i remaining = none := by
  intro remaining
  induction remaining with
  | zero => intro i _; rfl
  | succ n ih =>
    intro i hall
    unfold scanLoop
    rw [hall i (Nat.le_refl i) (by omega)]
    simp only [Bool.false_eq_true, if_false]
    exact ih (i + 1) fun k hk1 hk2 => hall k (by omega) (by omega)

/-- If position `j` is the first probed position holding a selectable
item, the scan returns `pos j`. -/
theorem scanLoop_eq_some {sel : α → Bool} {items : List α} {pos : Nat → Nat} :
    ∀ remaining i j, i ≤ j → j < i + remaining →
      selAt sel items (pos j) = true →
      (∀ k, i ≤ k → k < j → selAt sel items (pos k) = false) →
      scanLoop sel items pos i remaining = some (pos j) := by
  intro remaining
  induction remaining with
  | zero => intro i j h1 h2; omega
  | succ n ih =>
    intro i j h1 h2 hj hmin
    unfold scanLoop
    rcases Nat.eq_or_lt_of_le h1 with heq | hlt
    · subst heq
      rw [hj]
      simp
    · rw [hmin i (Nat.le_refl i) hlt]
      simp only [Bool.false_eq_true, if_false]
      exact ih (i + 1) j hlt (by omega) hj fun k hk1 hk2 => hmin k (by omega) hk2

/-- The scan only ever returns selectable positions. -/
theorem scanLoop_selAt {sel : α → Bool} {items : List α} {pos : Nat → Nat} :
    ∀ remaining i q, scanLoop sel items pos i remaining = some q →
      selAt sel items q = true := by
  intro remaining
  induction remaining with
  | zero => intro i q h; exact absurd h (by simp [scanLoop])
  | succ n ih =>
    intro i q h
    unfold scanLoop at h
    by_cases hs : selAt sel items (pos i) = true
    · rw [hs] at h
      simp at h
      rw [← h]
      exact hs
    · rw [Bool.eq_false_iff.mpr hs] at h
      simp only [Bool.false_eq_true, if_false] at h
      exact ih (i + 1) q h

/-- Claim C5: ArrowDown moves the highlight to the next selectable item
after the current highlight (the first selectable item when no highlight
exists), wrapping circularly and skipping non-selectable items; with no
selectable item or an empty filtered view the state is unchanged; when
the highlight actually changes the menu is opened. -/
theorem C5_arrowDown_cycles_forward (α : Type) (props : Props α) (state : State) :
    ((getFilteredItems props).length = 0 → handleArrowDown props state = state) ∧
    ((∀ p, p < (getFilteredItems props).length →
        selAt props.isItemSelectable (getFilteredItems props) p = false) →
      handleArrowDown props state = state) ∧
    (∀ j, state.highlightedIndex = none → j < (getFilteredItems props).length →
      selAt props.isItemSelectable (getFilteredItems props) j = true →
      (∀ k, k < j → selAt props.isItemSelectable (getFilteredItems props) k = false) →
      handleArrowDown props state = { highlightedIndex := some j, isOpen := true }) ∧
    (∀ h d, state.highlightedIndex = some h → 1 ≤ d →
      d ≤ (getFilteredItems props).length →
      selAt props.isItemSelectable (getFilteredItems props)
        ((h + d) % (getFilteredItems props).length) = true →
      (∀ e, 1 ≤ e → e < d →
        selAt props.isItemSelectable (getFilteredItems props)
          ((h + e) % (getFilteredItems props).length) = false) →
      (handleArrowDown props state).highlightedIndex =
        some ((h + d) % (getFilteredItems props).length) ∧
      ((h + d) % (getFilteredItems props).length ≠ h →
        handleArrowDown props state =
          { highlightedIndex := some ((h + d) % (getFilteredItems props).length),
            isOpen := true })) := by
  refine ⟨?_, ?_, ?_, ?_⟩
  · intro hlen
    unfold handleArrowDown
    rw [if_pos hlen]
  · intro hnosel
    by_cases hlen : (getFilteredItems props).length = 0
    · unfold handleArrowDown
      rw [if_pos hlen]
    · have hpos : 0 < (getFilteredItems props).length := Nat.pos_of_ne_zero hlen
      have hscan :
          scanLoop props.isItemSelectable (getFilteredItems props)
            (fun i =>
              (arrowDownBase state.highlightedIndex + i) % (getFilteredItems props).length)
            0 (getFilteredItems props).length = none :=
        scanLoop_eq_none _ _ fun k _ _ => hnosel _ (Nat.mod_lt _ hpos)
      unfold handleArrowDown
      rw [if_neg hlen, hscan]
  · intro j hnone hj hsel hmin
    have hlen : (getFilteredItems props).length ≠ 0 := by omega
    have hbase : arrowDownBase state.highlightedIndex = 0 := by
      rw [hnone]
      rfl
    have hscan :
        scanLoop props.isItemSelectable (getFilteredItems props)
          (fun i =>
            (arrowDownBase state.highlightedIndex + i) % (getFilteredItems props).length)
          0 (getFilteredItems props).length = some j := by
      have hj2 : (arrowDownBase state.highlightedIndex + j) % (getFilteredItems props).length
          = j := by
        rw [hbase, Nat.zero_add, Nat.mod_eq_of_lt hj]
      refine (scanLoop_eq_some (getFilteredItems props).length 0 j (Nat.zero_le j)
        (by omega) ?_ ?_).trans (by rw [hj2])
      · rw [hj2]
        exact hsel
      · intro k _ hk
        have hk2 : (arrowDownBase state.highlightedIndex + k) % (getFilteredItems props).length
            = k := by
          rw [hbase, Nat.zero_add, Nat.mod_eq_of_lt (by omega)]
        rw [hk2]
        exact hmin k hk
    unfold handleArrowDown
    rw [if_neg hlen, hscan, hnone]
    simp
  · intro h d hsome hd1 hd2 hsel hmin
    have hlen : (getFilteredItems props).length ≠ 0 := by omega
    have hbase : arrowDownBase state.highlightedIndex = h + 1 := by
      rw [hsome]
      rfl
    have hscan :
        scanLoop props.isItemSelectable (getFilteredItems props)
          (fun i =>
            (arrowDownBase state.highlightedIndex + i) % (getFilteredItems props).length)
          0 (getFilteredItems props).length =
          some ((h + d) % (getFilteredItems props).length) := by
      have hj2 : (arrowDownBase state.highlightedIndex + (d - 1)) %
          (getFilteredItems props).length = (h + d) % (getFilteredItems props).length := by
        rw [hbase]
        congr 1
        omega
      refine (scanLoop_eq_some (getFilteredItems props).length 0 (d - 1) (Nat.zero_le _)
        (by omega) ?_ ?_).trans (by rw [hj2])
      · rw [hj2]
        exact hsel
      · intro k _ hk
        have hk2 : (arrowDownBase state.highlightedIndex + k) % (getFilteredItems props).length
            = (h + (k + 1)) % (getFilteredItems props).length := by
          rw [hbase]
          congr 1
          omega
        rw [hk2]
        exact hmin (k + 1) (by omega) (by omega)
    by_cases hph : (h + d) % (getFilteredItems props).length = h
    · constructor
      · unfold handleArrowDown
        rw [if_neg hlen, hscan]
        simp [hsome, hph]
      · intro hne
        exact absurd hph hne
    · have hcond : ¬ state.highlightedIndex = some ((h + d) % (getFilteredItems props).length) := by
        rw [hsome]
        intro hcontra
        exact hph (Option.some.inj hcontra).symm
      constructor
      · unfold handleArrowDown
        rw [if_neg hlen, hscan]
        show (if state.highlightedIndex = some ((h + d) % (getFilteredItems props).length)
            then state
            else { isOpen := true,
                   highlightedIndex :=
                     some ((h + d) % (getFilteredItems props).length) }).highlightedIndex =
          some ((h + d) % (getFilteredItems props).length)
        rw [if_neg hcond]
      · intro _
        unfold handleArrowDown
        rw [if_neg hlen, hscan]
        show (if state.highlightedIndex = some ((h + d) % (getFilteredItems props).length)
            then state
            else { isOpen := true,
                   highlightedIndex :=
                     some ((h + d) % (getFilteredItems props).length) }) =
          { isOpen := true,
            highlightedIndex := some ((h + d) % (getFilteredItems props).length) }
        rw [if_neg hcond]

/-- Claim C10: with no current highlight, ArrowUp moves the highlight to
the last selectable item of the filtered view (searching backwards from
the end, skipping non-selectable items) and opens the menu; with no
selectable item or an empty filtered view the state is unchanged. -/
theorem C10_arrowUp_from_no_highlight (α : Type) (props : Props α) (state : State)
    (hnone : state.highlightedIndex = none) :
    ((getFilteredItems props).length = 0 → handleArrowUp props state = state) ∧
    ((∀ p, p < (getFilteredItems props).length →
        selAt props.isItemSelectable (getFilteredItems props) p = false) →
      handleArrowUp props state = state) ∧
    (∀ j, j < (getFilteredItems props).length →
      selAt props.isItemSelectable (getFilteredItems props) j = true →
      (∀ k, j < k → k < (getFilteredItems props).length →
        selAt props.isItemSelectable (getFilteredItems props) k = false) →
      handleArrowUp props state = { highlightedIndex := some j, isOpen := true }) := by
  have hbase : arrowUpBase (getFilteredItems props).length state.highlightedIndex =
      (getFilteredItems props).length := by
    rw [hnone]
    rfl
  refine ⟨?_, ?_, ?_⟩
  · intro hlen
    unfold handleArrowUp
    rw [if_pos hlen]
  · intro hnosel
    by_cases hlen : (getFilteredItems props).length = 0
    · unfold handleArrowUp
      rw [if_pos hlen]
    · have hpos : 0 < (getFilteredItems props).length := Nat.pos_of_ne_zero hlen
      have hscan :
          scanLoop props.isItemSelectable (getFilteredItems props)
            (fun i =>
              (arrowUpBase (getFilteredItems props).length state.highlightedIndex +
                (getFilteredItems props).length - (1 + i)) % (getFilteredItems props).length)
            0 (getFilteredItems props).length = none :=
        scanLoop_eq_none _ _ fun k _ _ => hnosel _ (Nat.mod_lt _ hpos)
      unfold handleArrowUp
      rw [if_neg hlen, hscan, hnone]
  · intro j hj hsel hmax
    have hlen : (getFilteredItems props).length ≠ 0 := by omega
    have hup : ∀ i, i < (getFilteredItems props).length →
        (arrowUpBase (getFilteredItems props).length state.highlightedIndex +
          (getFilteredItems props).length - (1 + i)) % (getFilteredItems props).length =
          (getFilteredItems props).length - 1 - i := by
      intro i hi
      rw [hbase]
      have heq : (getFilteredItems props).length + (getFilteredItems props).length - (1 + i) =
          (getFilteredItems props).length + ((getFilteredItems props).length - 1 - i) := by
        omega
      rw [heq, Nat.add_mod_left, Nat.mod_eq_of_lt (by omega)]
    have hscan :
        scanLoop props.isItemSelectable (getFilteredItems props)
          (fun i =>
            (arrowUpBase (getFilteredItems props).length state.highlightedIndex +
              (getFilteredItems props).length - (1 + i)) % (getFilteredItems props).length)
          0 (getFilteredItems props).length = some j := by
      have hij : (getFilteredItems props).length - 1 - j < (getFilteredItems props).length := by
        omega
      have hj2 : (getFilteredItems props).length - 1 -
          ((getFilteredItems props).length - 1 - j) = j := by omega
      refine (scanLoop_eq_some (getFilteredItems props).length 0
        ((getFilteredItems props).length - 1 - j) (Nat.zero_le _) (by omega) ?_ ?_).trans ?_
      · rw [hup _ hij, hj2]
        exact hsel
      · intro k _ hk
        rw [hup k (by omega)]
        exact hmax _ (by omega) (by omega)
      · rw [hup _ hij, hj2]
    unfold handleArrowUp
    rw [if_neg hlen, hscan]

/-- Observable side effects of the handlers: callback invocations and
imperative DOM calls, in the order the source performs them.  `crash`
marks the paths where the source would read a property of `undefined`
(an out-of-range `items[highlightedIndex]` access); those paths are
unreachable while the highlight invariant holds. -/
inductive Effect (α : Type) where
  | onSelect (value : String) (item : α)
  | preventDefault
  | selectInput
  | setSelectionRange (n : Nat)
  | focusInput
  | callInputPropsOnBlur
  | callInputPropsOnFocus
  | onChangeCall
  | scrollTo
  | crash
deriving DecidableEq

/-- Number of `onSelect` invocations in an effect list. -/
def onSelectCount (effs : List (Effect α)) : Nat :=
  effs.countP fun e =>
    match e with
    | .onSelect _ _ => true
    | _ => false

/-- Number of `inputProps.onBlur` invocations in an effect list. -/
def onBlurCallCount (effs : List (Effect α)) : Nat :=
  effs.countP fun e =>
    match e with
    | .callInputPropsOnBlur => true
    | _ => false

/-- The whole mounted component: current props, interaction state and
the private instance fields `_ignoreBlur`, `_ignoreFocus` and
`_scrollOffset` (the latter modelled as a flag saying whether an offset
is currently recorded). -/
structure Component (α : Type) where
  props : Props α
  state : State
  ignoreBlur : Bool
  ignoreFocus : Bool
  scrollOffset : Bool

/-- Embedding of `isOpen()`: the caller-supplied `open` prop overrides
the internal state when present. -/
def isOpen (props : Props α) (state : State) : Bool :=
  match props.openProp with
  | some b => b
  | none => state.isOpen

/-- Lower-cased character sequence of a string: the observable content
of `s.toLowerCase()`. -/
def lowerChars (s : String) : List Char := s.data.map Char.toLower

/-- Embedding of the test
`itemValue.toLowerCase().indexOf(value.toLowerCase()) === 0`: the
lower-cased value is a prefix of the lower-cased display value. -/
def ciPrefixMatch (value itemValue : String) : Bool :=
  List.isPrefixOf (lowerChars value) (lowerChars itemValue)

/-- Embedding of the loop in `maybeAutoCompleteText`: starting from
`index`, repeatedly advance `(index + 1) % length` until the current
position holds a selectable item, for at most `fuel` steps (the source
runs the loop `items.length` times).  Every position the source probes
from an in-range start is in range, so `selAt` captures the
`isItemSelectable(items[index])` test. -/
def autoCompleteLoop (sel : α → Bool) (items : List α) : Nat → Nat → Nat
  | 0, index => index
  | fuel + 1, index =>
    if selAt sel items index then index
    else autoCompleteLoop sel items fuel ((index + 1) % items.length)

/-- Embedding of `maybeAutoCompleteText` (a `setState` updater): advance
from the current highlight (or 0) to the first selectable item of the
filtered view; highlight it exactly when the value is non-empty and the
display value of that item has the value as a case-insensitive prefix
(`itemValue.toLowerCase().indexOf(value.toLowerCase()) === 0`),
otherwise clear the highlight.  The `matchedItem` truthiness test in the
source is a definedness test here (items are objects, hence truthy). -/
def maybeAutoCompleteText (props : Props α) (state : State) : Option Nat :=
  match (getFilteredItems props).get?
      (autoCompleteLoop props.isItemSelectable (getFilteredItems props)
        (getFilteredItems props).length
        (state.highlightedIndex.getD 0)) with
  | some item =>
      if props.isItemSelectable item &&
          (props.value != "" &&
            ciPrefixMatch props.value (props.getItemValue item)) then
        some (autoCompleteLoop props.isItemSelectable (getFilteredItems props)
          (getFilteredItems props).length
          (state.highlightedIndex.getD 0))
      else none
  | none => none

/-- Embedding of `ensureHighlightedIndex` (a `setState` updater): clear
the highlight when it no longer indexes into the filtered view.  The JS
comparison `state.highlightedIndex >= length` coerces `null` to `0`,
captured by `getD 0`. -/
def ensureHighlightedIndex (props : Props α) (state : State) : State :=
  if (getFilteredItems props).length ≤ state.highlightedIndex.getD 0 then
    { state with highlightedIndex := none }
  else state

/-- Embedding of `componentWillReceiveProps`: when a highlight exists,
queue `ensureHighlightedIndex`; when auto-highlight is on and the value
changed (or no highlight existed), queue `maybeAutoCompleteText`.  React
processes the queued updaters in order during the re-render with the
incoming props, so both updaters read `nextProps`; the guards read the
committed state (`this.state`), while each updater receives the state
left by the previous one.  This helper is the state after the first
(ensure) pass. -/
def ensuredState (c : Component α) (next : Props α) : State :=
  if c.state.highlightedIndex ≠ none then ensureHighlightedIndex next c.state
  else c.state

/-- Continuation of `componentWillReceiveProps`: after the ensure pass,
when auto-highlight is on and the value changed (or the committed state
had no highlight), apply the auto-highlight updater. -/
def receiveProps (c : Component α) (next : Props α) : Component α :=
  { c with
      props := next,
      state :=
        if next.autoHighlight &&
            (c.props.value != next.value || c.state.highlightedIndex == none) then
          { ensuredState c next with
              highlightedIndex := maybeAutoCompleteText next (ensuredState c next) }
        else ensuredState c next }

/-- Embedding of the `Enter` key handler.  Key code 229 marks IME
composition (Pinyin, Kana, ...); only the literal key code 13 acts.
With the menu closed nothing happens (beyond releasing the ignore-blur
flag); with no highlight the menu is closed and the input text selected;
with a highlight the highlighted item is committed: default prevented,
menu closed, highlight cleared, caret moved, selection callback invoked
with the display value and the item. -/
def handleEnter (c : Component α) (keyCode : Nat) : Component α × List (Effect α) :=
  if keyCode ≠ 13 then (c, [])
  else
    let c1 := { c with ignoreBlur := false }
    if !(isOpen c1.props c1.state) then (c1, [])
    else
      match c1.state.highlightedIndex with
      | none => ({ c1 with state := { c1.state with isOpen := false } }, [.selectInput])
      | some hi =>
          match (getFilteredItems c1.props).get? hi with
          | some item =>
              ({ c1 with state := { isOpen := false, highlightedIndex := none } },
                [.preventDefault,
                 .setSelectionRange (c1.props.getItemValue item).length,
                 .onSelect (c1.props.getItemValue item) item])
          | none =>
              ({ c1 with state := { isOpen := false, highlightedIndex := none } },
                [.preventDefault, .crash])

/-- Embedding of `handleKeyDown` and the static `keyDownHandlers` table:
recognized keys dispatch to their handler, any other key opens the menu
when it is closed. -/
inductive Key where
  | arrowDown
  | arrowUp
  | enter
  | escape
  | tab
  | other
deriving DecidableEq

/-- Dispatch of a keydown event. -/
def handleKeyDown (c : Component α) (key : Key) (keyCode : Nat) :
    Component α × List (Effect α) :=
  match key with
  | .arrowDown => ({ c with state := handleArrowDown c.props c.state }, [.preventDefault])
  | .arrowUp => ({ c with state := handleArrowUp c.props c.state }, [.preventDefault])
  | .enter => handleEnter c keyCode
  | .escape =>
      ({ c with
          state := { isOpen := false, highlightedIndex := none },
          ignoreBlur := false }, [])
  | .tab => ({ c with ignoreBlur := false }, [])
  | .other =>
      if isOpen c.props c.state then (c, [])
      else ({ c with state := { c.state with isOpen := true } }, [])

/-- Embedding of `selectItemFromMouse`: release the ignore-blur flag,
close the menu, clear the highlight, then invoke the selection callback
from the `setState` completion callback. -/
def selectItemFromMouse (c : Component α) (item : α) : Component α × List (Effect α) :=
  ({ c with
      ignoreBlur := false,
      state := { isOpen := false, highlightedIndex := none } },
    [.onSelect (c.props.getItemValue item) item])

/-- Embedding of `handleInputBlur`.  While the ignore-blur flag is set:
mark the one-shot ignore-focus flag, record the scroll offset, re-focus
the input, and change nothing else.  Otherwise: optionally fire the
selection callback for the highlighted item (`selectOnBlur`), close the
menu and clear the highlight, and invoke a caller-supplied
`inputProps.onBlur`.  The source calls `onBlur` synchronously and defers
the `onSelect` to the `setState` completion callback, hence the order. -/
def handleInputBlur (c : Component α) : Component α × List (Effect α) :=
  if c.ignoreBlur then
    ({ c with ignoreFocus := true, scrollOffset := true }, [.focusInput])
  else
    ({ c with state := { isOpen := false, highlightedIndex := none } },
      (if c.props.inputPropsOnBlur then [.callInputPropsOnBlur] else []) ++
      (if c.props.selectOnBlur then
        match c.state.highlightedIndex with
        | some hi =>
            match (getFilteredItems c.props).get? hi with
            | some item => [.onSelect (c.props.getItemValue item) item]
            | none => [.crash]
        | none => []
      else []))

/-- Embedding of `handleInputFocus`.  With the one-shot ignore-focus
flag set: consume it and the recorded scroll offset and restore the
scroll position twice (immediately and on the next tick).  Otherwise:
open the menu and invoke a caller-supplied `inputProps.onFocus`. -/
def handleInputFocus (c : Component α) : Component α × List (Effect α) :=
  if c.ignoreFocus then
    ({ c with ignoreFocus := false, scrollOffset := false }, [.scrollTo, .scrollTo])
  else
    ({ c with state := { c.state with isOpen := true } },
      if c.props.inputPropsOnFocus then [.callInputPropsOnFocus] else [])

/-- The UI events the component reacts to.  `mouseEnterItem` and
`mouseClickItem` carry the index of the rendered menu item; the source
attaches those DOM handlers only to items of the rendered (open) menu
and only when the item is selectable, which `step` reflects as guards.
`inputClick` carries whether the input currently has focus. -/
inductive Event (α : Type) where
  | keyDown (key : Key) (keyCode : Nat)
  | focus
  | blur
  | inputClick (inputFocused : Bool)
  | changeInput
  | mouseEnterItem (i : Nat)
  | mouseClickItem (i : Nat)
  | mouseEnterMenu
  | mouseLeaveMenu
  | touchStartMenu
  | propsChange (next : Props α)

/-- One transition of the component: the handler fired by the event,
returning the new component and the effects performed. -/
def step (c : Component α) (e : Event α) : Component α × List (Effect α) :=
  match e with
  | .keyDown key keyCode => handleKeyDown c key keyCode
  | .focus => handleInputFocus c
  | .blur => handleInputBlur c
  | .inputClick inputFocused =>
      if inputFocused && !(isOpen c.props c.state) then
        ({ c with state := { c.state with isOpen := true } }, [])
      else (c, [])
  | .changeInput => (c, [.onChangeCall])
  | .mouseEnterItem i =>
      match (getFilteredItems c.props).get? i with
      | some item =>
          if isOpen c.props c.state && c.props.isItemSelectable item then
            ({ c with state := { c.state with highlightedIndex := some i } }, [])
          else (c, [])
      | none => (c, [])
  | .mouseClickItem i =>
      match (getFilteredItems c.props).get? i with
      | some item =>
          if isOpen c.props c.state && c.props.isItemSelectable item then
            selectItemFromMouse c item
          else (c, [])
      | none => (c, [])
  | .mouseEnterMenu => ({ c with ignoreBlur := true }, [])
  | .mouseLeaveMenu => ({ c with ignoreBlur := false }, [])
  | .touchStartMenu => ({ c with ignoreBlur := true }, [])
  | .propsChange next => (receiveProps c next, [])

/-- The component right after mount: menu closed, no highlight, all
private flags clear. -/
def initComponent (props : Props α) : Component α :=
  { props := props, state := { isOpen := false, highlightedIndex := none },
    ignoreBlur := false, ignoreFocus := false, scrollOffset := false }

/-- Run a sequence of events from a component. -/
def run (c : Component α) : List (Event α) → Component α
  | [] => c
  | e :: es => run (step c e).1 es

/-- On a position inside the list, `selAt` is the selectability of the
element there. -/
theorem selAt_eq_of_get? {sel : α → Bool} {items : List α} {p : Nat} {item : α}
    (hget : items.get? p = some item) : selAt sel items p = sel item := by
  unfold selAt
  rw [hget]

/-- The auto-complete loop stops at the first selectable position of the
circular probe sequence that starts at `index`. -/
theorem autoCompleteLoop_found {sel : α → Bool} {items : List α} :
    ∀ fuel index d, index < items.length → d < fuel →
      selAt sel items ((index + d) % items.length) = true →
      (∀ e, e < d → selAt sel items ((index + e) % items.length) = false) →
      autoCompleteLoop sel items fuel index = (index + d) % items.length := by
  intro fuel
  induction fuel with
  | zero => intro index d _ hd; omega
  | succ n ih =>
    intro index d hindex hd hfound hmin
    cases d with
    | zero =>
      have hsel : selAt sel items index = true := by
        have h2 := hfound
        rwa [Nat.add_zero, Nat.mod_eq_of_lt hindex] at h2
      unfold autoCompleteLoop
      rw [hsel]
      simp [Nat.mod_eq_of_lt hindex]
    | succ e =>
      have hlenpos : 0 < items.length := by omega
      have h0 : selAt sel items index = false := by
        have := hmin 0 (by omega)
        rwa [Nat.add_zero, Nat.mod_eq_of_lt hindex] at this
      unfold autoCompleteLoop
      rw [h0]
      simp only [Bool.false_eq_true, if_false]
      have hshift : ∀ m, ((index + 1) % items.length + m) % items.length =
          (index + (m + 1)) % items.length := by
        intro m
        rw [Nat.mod_add_mod]
        congr 1
        omega
      have hresult := ih ((index + 1) % items.length) e (Nat.mod_lt _ hlenpos)
        (by omega)
        (by rw [hshift]; exact hfound)
        (by
          intro f hf
          rw [hshift]
          exact hmin (f + 1) (by omega))
      rw [hresult, hshift]

/-- The auto-complete recomputation only ever produces an index of the
filtered view. -/
theorem maybeAutoCompleteText_valid {props : Props α} {state : State} {j : Nat}
    (h : maybeAutoCompleteText props state = some j) :
    j < (getFilteredItems props).length := by
  unfold maybeAutoCompleteText at h
  split at h
  · rename_i item hget
    split at h
    · rw [Option.some.inj h] at hget
      exact (List.get?_eq_some.mp hget).1
    · exact absurd h (by simp)
  · exact absurd h (by simp)

/-- Claim C4: with the menu open and a highlighted item, an Enter
keydown with native key code 13 fires `onSelect` exactly once with the
display value and the item, closes the menu and clears the highlight;
open with no highlight fires no `onSelect`; closed, or a key code other
than 13 (IME composition), changes the interaction state in no way and
fires no callback. -/
theorem C4_enter_commits_highlight (α : Type) (c : Component α) (keyCode : Nat) :
    (∀ hi item, isOpen c.props c.state = true →
      c.state.highlightedIndex = some hi →
      (getFilteredItems c.props).get? hi = some item →
      (handleEnter c 13).2 =
        [.preventDefault, .setSelectionRange (c.props.getItemValue item).length,
         .onSelect (c.props.getItemValue item) item] ∧
      onSelectCount (handleEnter c 13).2 = 1 ∧
      (handleEnter c 13).1.state.isOpen = false ∧
      (handleEnter c 13).1.state.highlightedIndex = none) ∧
    (isOpen c.props c.state = true → c.state.highlightedIndex = none →
      onSelectCount (handleEnter c 13).2 = 0) ∧
    (isOpen c.props c.state = false →
      (handleEnter c 13).1.state = c.state ∧ (handleEnter c 13).2 = []) ∧
    (keyCode ≠ 13 → handleEnter c keyCode = (c, [])) := by
  refine ⟨?_, ?_, ?_, ?_⟩
  · intro hi item hopen hhi hget
    rw [List.get?_eq_getElem?] at hget
    unfold handleEnter
    rw [if_neg (by omega : ¬ (13 : Nat) ≠ 13)]
    simp [hopen, hhi, hget, onSelectCount]
  · intro hopen hhi
    unfold handleEnter
    rw [if_neg (by omega : ¬ (13 : Nat) ≠ 13)]
    simp [hopen, hhi, onSelectCount]
  · intro hclosed
    unfold handleEnter
    rw [if_neg (by omega : ¬ (13 : Nat) ≠ 13)]
    simp [hclosed]
  · intro hne
    unfold handleEnter
    rw [if_pos hne]

/-- Claim C6: the auto-highlight recomputation clears the highlight when
the value is empty or no item is selectable; otherwise it advances
circularly from the current highlight (or 0) to the first selectable
item and highlights it exactly when the display value of that item has
the current value as a case-insensitive prefix; recomputing on a props
change performs no effect (in particular no `onSelect`). -/
theorem C6_auto_highlight_prefix_match (α : Type) (props : Props α) (state : State)
    (hstart : state.highlightedIndex = none ∨
      ∃ h, state.highlightedIndex = some h ∧ h < (getFilteredItems props).length) :
    (props.value = "" → maybeAutoCompleteText props state = none) ∧
    ((∀ p, p < (getFilteredItems props).length →
        selAt props.isItemSelectable (getFilteredItems props) p = false) →
      maybeAutoCompleteText props state = none) ∧
    (∀ d item, d < (getFilteredItems props).length →
      (getFilteredItems props).get?
        ((state.highlightedIndex.getD 0 + d) % (getFilteredItems props).length) =
          some item →
      props.isItemSelectable item = true →
      (∀ e, e < d → selAt props.isItemSelectable (getFilteredItems props)
        ((state.highlightedIndex.getD 0 + e) % (getFilteredItems props).length) = false) →
      maybeAutoCompleteText props state =
        (if props.value != "" && ciPrefixMatch props.value (props.getItemValue item)
         then some ((state.highlightedIndex.getD 0 + d) % (getFilteredItems props).length)
         else none)) ∧
    (∀ (c : Component α) (next : Props α), (step c (.propsChange next)).2 = []) := by
  refine ⟨?_, ?_, ?_, fun c next => rfl⟩
  · intro hval
    unfold maybeAutoCompleteText
    split
    · rw [hval]
      simp
    · rfl
  · intro hnosel
    unfold maybeAutoCompleteText
    split
    · rename_i item hget
      have hlt := (List.get?_eq_some.mp hget).1
      have hfalse := hnosel _ hlt
      rw [selAt_eq_of_get? hget] at hfalse
      rw [hfalse]
      simp
    · rfl
  · intro d item hd hget hsel hmin
    have hstart2 : state.highlightedIndex.getD 0 < (getFilteredItems props).length := by
      rcases hstart with hn | ⟨h, hs, hlt⟩
      · rw [hn]
        simp only [Option.getD_none]
        omega
      · rw [hs]
        simpa using hlt
    have hfound : selAt props.isItemSelectable (getFilteredItems props)
        ((state.highlightedIndex.getD 0 + d) % (getFilteredItems props).length) = true := by
      rw [selAt_eq_of_get? hget]
      exact hsel
    have hloop := autoCompleteLoop_found (getFilteredItems props).length
      (state.highlightedIndex.getD 0) d hstart2 hd hfound hmin
    unfold maybeAutoCompleteText
    rw [hloop, hget]
    simp [hsel]

/-- Claim C7: with the menu open, a mouse click on a selectable rendered
item fires `onSelect` exactly once with the display value and the item,
closes the menu, clears the highlight and releases the ignore-blur
flag. -/
theorem C7_mouse_click_selects (α : Type) (c : Component α) (i : Nat) (item : α)
    (hopen : isOpen c.props c.state = true)
    (hget : (getFilteredItems c.props).get? i = some item)
    (hsel : c.props.isItemSelectable item = true) :
    (step c (.mouseClickItem i)).2 = [.onSelect (c.props.getItemValue item) item] ∧
    onSelectCount (step c (.mouseClickItem i)).2 = 1 ∧
    (step c (.mouseClickItem i)).1.state.isOpen = false ∧
    (step c (.mouseClickItem i)).1.state.highlightedIndex = none ∧
    (step c (.mouseClickItem i)).1.ignoreBlur = false := by
  simp only [step]
  rw [hget]
  simp [hopen, hsel, selectItemFromMouse, onSelectCount]

/-- Claim C8: a blur event arriving while the ignore-blur flag is set
leaves the interaction state untouched, fires no selection callback and
no caller-supplied blur handler, re-focuses the input, sets the one-shot
ignore-focus flag and records the scroll offset. -/
theorem C8_blur_while_ignoring (α : Type) (c : Component α)
    (hib : c.ignoreBlur = true) :
    (step c .blur).1.state = c.state ∧
    (step c .blur).2 = [.focusInput] ∧
    onSelectCount (step c .blur).2 = 0 ∧
    onBlurCallCount (step c .blur).2 = 0 ∧
    (step c .blur).1.ignoreFocus = true ∧
    (step c .blur).1.scrollOffset = true := by
  simp only [step]
  unfold handleInputBlur
  simp [hib, onSelectCount, onBlurCallCount]

/-- Claim C9: an Escape keydown always closes the menu, clears the
highlight and releases the ignore-blur flag, whatever the prior state,
performing no effect. -/
theorem C9_escape_closes_and_clears (α : Type) (c : Component α) (keyCode : Nat) :
    (step c (.keyDown .escape keyCode)).1.state.isOpen = false ∧
    (step c (.keyDown .escape keyCode)).1.state.highlightedIndex = none ∧
    (step c (.keyDown .escape keyCode)).1.ignoreBlur = false ∧
    (step c (.keyDown .escape keyCode)).2 = [] :=
  ⟨rfl, rfl, rfl, rfl⟩

/-- The highlight invariant: a present highlight indexes into the
current filtered view. -/
def validState (props : Props α) (state : State) : Prop :=
  ∀ i, state.highlightedIndex = some i → i < (getFilteredItems props).length

/-- ArrowDown preserves the highlight invariant. -/
theorem validState_handleArrowDown (props : Props α) (state : State)
    (hv : validState props state) :
    validState props (handleArrowDown props state) := by
  unfold handleArrowDown
  split
  · exact hv
  · split
    · rename_i p hscan
      split
      · exact hv
      · intro i hi
        have hpi : p = i := Option.some.inj hi
        subst hpi
        exact selAt_lt_length (scanLoop_selAt _ _ _ hscan)
    · exact hv

/-- ArrowUp preserves the highlight invariant. -/
theorem validState_handleArrowUp (props : Props α) (state : State)
    (hv : validState props state) :
    validState props (handleArrowUp props state) := by
  unfold handleArrowUp
  split
  · exact hv
  · split
    · rename_i p hscan
      intro i hi
      have hpi : p = i := Option.some.inj hi
      subst hpi
      exact selAt_lt_length (scanLoop_selAt _ _ _ hscan)
    · split
      · exact hv
      · rename_i h hsome
        split
        · exact hv
        · intro i hi
          have hhi : h = i := Option.some.inj hi
          subst hhi
          exact hv h hsome

/-- Enter preserves the highlight invariant. -/
theorem validState_handleEnter (c : Component α) (keyCode : Nat)
    (hv : validState c.props c.state) :
    validState (handleEnter c keyCode).1.props (handleEnter c keyCode).1.state := by
  unfold handleEnter
  dsimp only
  split
  · exact hv
  · split
    · exact hv
    · split
      · exact fun i hi => hv i hi
      · split
        · intro i hi
          exact absurd hi (by simp)
        · intro i hi
          exact absurd hi (by simp)

/-- The ensure pass establishes the highlight invariant for the incoming
props. -/
theorem validState_ensuredState (c : Component α) (next : Props α) :
    validState next (ensuredState c next) := by
  unfold ensuredState ensureHighlightedIndex
  split
  · split
    · intro i hi
      exact absurd hi (by simp)
    · rename_i hnot
      intro i hi
      rw [hi] at hnot
      simp at hnot
      omega
  · rename_i hnone
    intro i hi
    rw [hi] at hnone
    simp at hnone

/-- A props change establishes the highlight invariant for the incoming
props. -/
theorem validState_receiveProps (c : Component α) (next : Props α) :
    validState (receiveProps c next).props (receiveProps c next).state := by
  unfold receiveProps
  split
  · exact fun i hi => maybeAutoCompleteText_valid hi
  · exact fun i hi => validState_ensuredState c next i hi

/-- Every transition preserves the highlight invariant. -/
theorem validState_step (c : Component α) (e : Event α)
    (hv : validState c.props c.state) :
    validState (step c e).1.props (step c e).1.state := by
  cases e with
  | keyDown key keyCode =>
    cases key with
    | arrowDown =>
      simp only [step, handleKeyDown]
      exact validState_handleArrowDown c.props c.state hv
    | arrowUp =>
      simp only [step, handleKeyDown]
      exact validState_handleArrowUp c.props c.state hv
    | enter =>
      simp only [step, handleKeyDown]
      exact validState_handleEnter c keyCode hv
    | escape =>
      simp only [step, handleKeyDown]
      intro i hi
      exact absurd hi (by simp)
    | tab =>
      simp only [step, handleKeyDown]
      exact fun i hi => hv i hi
    | other =>
      simp only [step, handleKeyDown]
      split
      · exact hv
      · exact fun i hi => hv i hi
  | focus =>
    simp only [step]
    unfold handleInputFocus
    split
    · exact hv
    · exact fun i hi => hv i hi
  | blur =>
    simp only [step]
    unfold handleInputBlur
    split
    · exact hv
    · intro i hi
      exact absurd hi (by simp)
  | inputClick inputFocused =>
    simp only [step]
    split
    · exact fun i hi => hv i hi
    · exact hv
  | changeInput =>
    simp only [step]
    exact hv
  | mouseEnterItem i =>
    simp only [step]
    split
    · rename_i item hget
      split
      · intro j hj
        have hij : i = j := Option.some.inj hj
        subst hij
        exact (List.get?_eq_some.mp hget).1
      · exact hv
    · exact hv
  | mouseClickItem i =>
    simp only [step]
    split
    · rename_i item hget
      split
      · intro j hj
        exact absurd hj (by simp [selectItemFromMouse])
      · exact hv
    · exact hv
  | mouseEnterMenu =>
    simp only [step]
    exact fun i hi => hv i hi
  | mouseLeaveMenu =>
    simp only [step]
    exact fun i hi => hv i hi
  | touchStartMenu =>
    simp only [step]
    exact fun i hi => hv i hi
  | propsChange next =>
    simp only [step]
    exact validState_receiveProps c next

/-- The highlight invariant holds along every run. -/
theorem validState_run (c : Component α) (events : List (Event α))
    (hv : validState c.props c.state) :
    validState (run c events).props (run c events).state := by
  induction events generalizing c with
  | nil => exact hv
  | cons e es ih => exact ih (step c e).1 (validState_step c e hv)

/-- On a props change that shrinks the filtered view to at or below the
current highlight, the stale index never survives: the ensure pass
clears it, and only the auto-highlight recomputation can put a fresh
index, valid for the new view, in its place. -/
theorem shrink_clears_stale_highlight (c : Component α) (next : Props α) (h : Nat)
    (hsome : c.state.highlightedIndex = some h)
    (hshrink : (getFilteredItems next).length ≤ h) :
    (step c (.propsChange next)).1.state.highlightedIndex = none ∨
    (next.autoHighlight = true ∧
      ∃ j, (step c (.propsChange next)).1.state.highlightedIndex = some j ∧
        j < (getFilteredItems next).length) := by
  have hens : (ensuredState c next).highlightedIndex = none := by
    unfold ensuredState
    rw [if_pos (by rw [hsome]; simp)]
    unfold ensureHighlightedIndex
    rw [if_pos (by rw [hsome]; simpa using hshrink)]
  simp only [step, receiveProps]
  split
  · rename_i hguard
    cases hma : maybeAutoCompleteText next (ensuredState c next) with
    | none =>
      left
      rfl
    | some j =>
      right
      have hg := hguard
      simp only [Bool.and_eq_true] at hg
      exact ⟨hg.1, j, rfl, maybeAutoCompleteText_valid hma⟩
  · left
    exact hens

/-- Claim C1 (amended): along every event-reachable state, a present
highlight indexes into the current filtered view; on a props change
shrinking the filtered view to at or below the current highlight, the
stale index never survives: the highlight either becomes absent, or
(auto-highlight enabled) is immediately replaced by a fresh index valid
for the new view. -/
theorem C1_highlight_invariant (α : Type) (props : Props α) (events : List (Event α)) :
    (∀ i, (run (initComponent props) events).state.highlightedIndex = some i →
      i < (getFilteredItems (run (initComponent props) events).props).length) ∧
    (∀ (next : Props α) (h : Nat),
      (run (initComponent props) events).state.highlightedIndex = some h →
      (getFilteredItems next).length ≤ h →
      ((step (run (initComponent props) events)
          (.propsChange next)).1.state.highlightedIndex = none ∨
       (next.autoHighlight = true ∧
        ∃ j, (step (run (initComponent props) events)
            (.propsChange next)).1.state.highlightedIndex = some j ∧
          j < (getFilteredItems next).length))) := by
  have hinit : validState (initComponent props).props (initComponent props).state := by
    intro i hi
    exact absurd hi (by simp [initComponent])
  refine ⟨validState_run (initComponent props) events hinit, ?_⟩
  intro next h hsome hshrink
  exact shrink_clears_stale_highlight (run (initComponent props) events) next h hsome hshrink

/-- Concrete props over `String` items with identity display value, all
items selectable, no filter, no sort, auto-highlight on. -/
def mkProps (items : List String) (value : String) : Props String where
  items := items
  value := value
  shouldItemRender := none
  isItemSelectable := fun _ => true
  sortItems := none
  getItemValue := fun s => s
  autoHighlight := true
  selectOnBlur := false
  openProp := none
  inputPropsOnBlur := false
  inputPropsOnFocus := false

/-- Concrete component fixture. -/
def mkComponent (props : Props String) (state : State) (ignoreBlur : Bool) :
    Component String :=
  { props := props, state := state, ignoreBlur := ignoreBlur,
    ignoreFocus := false, scrollOffset := false }

/-- First props of the C1 counterexample trace. -/
def cexProps0 : Props String := mkProps ["ab", "ac"] "a"

/-- Second props of the C1 counterexample trace: the filtered view
shrinks to one item while the value changes to "ab". -/
def cexProps1 : Props String := mkProps ["ab"] "ab"

/-- Events reaching the state highlighting index 1: two ArrowDown
presses. -/
def cexEvents : List (Event String) := [.keyDown .arrowDown 40, .keyDown .arrowDown 40]

/-- Claim C1, literal reading, refuted: after two ArrowDown presses the
highlight is index 1; changing props so that the filtered view shrinks
to length 1 (at or below the highlight) does not leave the highlight
absent — the auto-highlight recomputation immediately re-highlights
index 0 of the new view ("ab" matches the new value "ab"). -/
theorem C1_highlight_counterexample :
    (run (initComponent cexProps0) cexEvents).state.highlightedIndex = some 1 ∧
    (getFilteredItems cexProps1).length ≤ 1 ∧
    (step (run (initComponent cexProps0) cexEvents)
      (.propsChange cexProps1)).1.state.highlightedIndex = some 0 := by
  refine ⟨by decide, by decide, by decide⟩

/-- Witness for C1 at the counterexample trace: the invariant holds at
the reached state, and the shrink transition ends with the highlight
absent or freshly valid. -/
theorem C1_highlight_invariant_witness :
    1 < (getFilteredItems (run (initComponent cexProps0) cexEvents).props).length ∧
    ((step (run (initComponent cexProps0) cexEvents)
        (.propsChange cexProps1)).1.state.highlightedIndex = none ∨
     (cexProps1.autoHighlight = true ∧
      ∃ j, (step (run (initComponent cexProps0) cexEvents)
          (.propsChange cexProps1)).1.state.highlightedIndex = some j ∧
        j < (getFilteredItems cexProps1).length)) := by
  have h := C1_highlight_invariant String cexProps0 cexEvents
  exact ⟨h.1 1 (by decide), h.2 cexProps1 1 (by decide) (by decide)⟩

/-- Open component with item "a" highlighted. -/
def cOpenHi : Component String := mkComponent (mkProps ["a"] "") { isOpen := true, highlightedIndex := some 0 } false

/-- Open component with no highlight. -/
def cOpenNone : Component String := mkComponent (mkProps ["a"] "") { isOpen := true, highlightedIndex := none } false

/-- Closed component. -/
def cClosed : Component String := mkComponent (mkProps ["a"] "") { isOpen := false, highlightedIndex := none } false

/-- Witness for C4 at concrete components: committed selection on Enter
with a highlight, no selection without, no change when closed or when
the key code marks IME composition (229). -/
theorem C4_enter_commits_highlight_witness :
    ((handleEnter cOpenHi 13).2 =
      [.preventDefault, .setSelectionRange 1, .onSelect "a" "a"] ∧
     onSelectCount (handleEnter cOpenHi 13).2 = 1 ∧
     (handleEnter cOpenHi 13).1.state.isOpen = false ∧
     (handleEnter cOpenHi 13).1.state.highlightedIndex = none) ∧
    onSelectCount (handleEnter cOpenNone 13).2 = 0 ∧
    ((handleEnter cClosed 13).1.state = cClosed.state ∧ (handleEnter cClosed 13).2 = []) ∧
    handleEnter cOpenHi 229 = (cOpenHi, []) := by
  refine ⟨(C4_enter_commits_highlight String cOpenHi 13).1 0 "a" rfl rfl rfl,
    (C4_enter_commits_highlight String cOpenNone 13).2.1 rfl rfl,
    (C4_enter_commits_highlight String cClosed 13).2.2.1 rfl,
    (C4_enter_commits_highlight String cOpenHi 229).2.2.2 (by omega)⟩

/-- Witness for C5 at concrete input: from no highlight, ArrowDown moves
to the first item; on an empty collection nothing changes. -/
theorem C5_arrowDown_cycles_forward_witness :
    handleArrowDown (mkProps ["a", "b"] "") { isOpen := false, highlightedIndex := none } =
      { highlightedIndex := some 0, isOpen := true } ∧
    handleArrowDown (mkProps [] "") { isOpen := false, highlightedIndex := none } =
      { isOpen := false, highlightedIndex := none } := by
  constructor
  · exact (C5_arrowDown_cycles_forward String (mkProps ["a", "b"] "")
      { isOpen := false, highlightedIndex := none }).2.2.1 0 rfl (by decide) rfl
      (fun k hk => absurd hk (by omega))
  · exact (C5_arrowDown_cycles_forward String (mkProps [] "")
      { isOpen := false, highlightedIndex := none }).1 rfl

/-- Spec scenario props: three fruit items. -/
def autoProps (value : String) : Props String := mkProps ["apple", "banana", "cherry"] value

/-- Witness for C6 at the spec scenarios: value "ap" auto-highlights
"apple" (index 0); the empty value never auto-matches. -/
theorem C6_auto_highlight_prefix_match_witness :
    maybeAutoCompleteText (autoProps "ap") { isOpen := false, highlightedIndex := none } =
      some 0 ∧
    maybeAutoCompleteText (autoProps "") { isOpen := false, highlightedIndex := none } =
      none := by
  constructor
  · have h := (C6_auto_highlight_prefix_match String (autoProps "ap")
      { isOpen := false, highlightedIndex := none } (Or.inl rfl)).2.2.1 0 "apple"
      (by decide) rfl rfl (fun e he => absurd he (by omega))
    rw [h]
    decide
  · exact (C6_auto_highlight_prefix_match String (autoProps "")
      { isOpen := false, highlightedIndex := none } (Or.inl rfl)).1 rfl

/-- Open menu over the fruit items, pointer over the menu. -/
def cMenu : Component String := mkComponent (autoProps "") { isOpen := true, highlightedIndex := none } true

/-- Witness for C7 at the spec scenario: clicking "banana" fires
`onSelect("banana", item)` once, closes the menu, clears the highlight
and releases the ignore-blur flag. -/
theorem C7_mouse_click_selects_witness :
    (step cMenu (.mouseClickItem 1)).2 = [.onSelect "banana" "banana"] ∧
    onSelectCount (step cMenu (.mouseClickItem 1)).2 = 1 ∧
    (step cMenu (.mouseClickItem 1)).1.state.isOpen = false ∧
    (step cMenu (.mouseClickItem 1)).1.state.highlightedIndex = none ∧
    (step cMenu (.mouseClickItem 1)).1.ignoreBlur = false :=
  C7_mouse_click_selects String cMenu 1 "banana" rfl rfl rfl

/-- Open component, pointer over the menu, item 1 highlighted. -/
def cHover : Component String := mkComponent (autoProps "") { isOpen := true, highlightedIndex := some 1 } true

/-- Witness for C8 at concrete input: blur while the ignore-blur flag is
set re-focuses the input and changes no interaction state. -/
theorem C8_blur_while_ignoring_witness :
    (step cHover .blur).1.state = { isOpen := true, highlightedIndex := some 1 } ∧
    (step cHover .blur).2 = [.focusInput] ∧
    onSelectCount (step cHover .blur).2 = 0 ∧
    onBlurCallCount (step cHover .blur).2 = 0 ∧
    (step cHover .blur).1.ignoreFocus = true ∧
    (step cHover .blur).1.scrollOffset = true :=
  C8_blur_while_ignoring String cHover rfl

/-- Witness for C10 at concrete input: from no highlight, ArrowUp moves
to the last item of `["a", "b"]`. -/
theorem C10_arrowUp_from_no_highlight_witness :
    handleArrowUp (mkProps ["a", "b"] "") { isOpen := false, highlightedIndex := none } =
      { highlightedIndex := some 1, isOpen := true } := by
  have hlen2 : (getFilteredItems (mkProps ["a", "b"] "")).length = 2 := rfl
  exact (C10_arrowUp_from_no_highlight String (mkProps ["a", "b"] "")
    { isOpen := false, highlightedIndex := none } rfl).2.2 1 (by decide) rfl
    (fun k hk1 hk2 => absurd (hlen2 ▸ hk2) (by omega))

end Autocomplete
